import Mathlib

/-!
Verification of the tinytop real-time board server's token-authority and
sync-engine logic, shallowly embedded from the JavaScript source.

Two variants exist in the source:
* the room-based variant in `index.js` (token authority object
  `tokenAuthority` plus socket handlers closing over `currentRoom`);
* the single-board variant in `src/socket/handlers.js` (and the identical
  handlers in the simplified server), which delegates token logic to a
  `tokenService` module.

JavaScript objects keyed by pieceId are embedded as association lists with
unique keys; `Date.now()` timestamps are naturals (milliseconds); socket
emissions are recorded as an ordered list of `Emit` values.
-/

namespace Tinytop

/-- A lock token as stored by `tokenAuthority.tokens[pieceId]` in `index.js`:
`{ owner: playerId, timestamp: Date.now() }`. -/
structure Token where
  owner : String
  timestamp : Nat
deriving Repr, DecidableEq

/-- The in-memory token map: a JavaScript object keyed by pieceId. -/
abbrev TokenMap := List (String × Token)

/-- Assignment `obj[k] = v` on a JavaScript object: replaces the binding in
place when the key is present, appends it otherwise. -/
def setKey {β : Type} : List (String × β) → String → β → List (String × β)
  | [], k, v => [(k, v)]
  | kv :: rest, k, v =>
      if kv.1 = k then (k, v) :: rest else kv :: setKey rest k v

/-- Deletion `delete obj[k]` on a JavaScript object: removes the (unique)
binding for `k` when present. -/
def delKey {β : Type} : List (String × β) → String → List (String × β)
  | [], _ => []
  | kv :: rest, k =>
      if kv.1 = k then rest else kv :: delKey rest k

/-- `tokenAuthority.grantToken(pieceId, playerId)` from `index.js`:
unconditionally installs `{owner: playerId, timestamp: Date.now()}` under
`pieceId` and returns `true`. -/
def grantToken (m : TokenMap) (now : Nat) (pieceId playerId : String) :
    Bool × TokenMap :=
  (true, setKey m pieceId ⟨playerId, now⟩)

/-- `tokenAuthority.hasAuthority(pieceId, playerId)` from `index.js`: absent
token gives `false`; a token with `Date.now() - token.timestamp > 30000` is
deleted and gives `false`; otherwise the result is `token.owner === playerId`.
Natural-number truncated subtraction agrees with the JavaScript comparison,
since a negative difference is also not greater than 30000. -/
def hasAuthority (m : TokenMap) (now : Nat) (pieceId playerId : String) :
    Bool × TokenMap :=
  match List.lookup pieceId m with
  | none => (false, m)
  | some t =>
      if 30000 < now - t.timestamp then (false, delKey m pieceId)
      else (t.owner == playerId, m)

/-- `tokenAuthority.releaseToken(pieceId, playerId)` from `index.js`: returns
`false` when no token exists or the owner differs; otherwise deletes the token
and returns `true`. The token's age is never consulted. -/
def releaseToken (m : TokenMap) (pieceId playerId : String) :
    Bool × TokenMap :=
  match List.lookup pieceId m with
  | some t =>
      if t.owner == playerId then (true, delKey m pieceId) else (false, m)
  | none => (false, m)

/-- A board piece as stored in `game.pieces` by `index.js` and by the piece
manager (`{id, x, y, assetUrl, owner}`; the `createdAt` field added by one
add-piece path plays no role in any operation and is omitted). JavaScript
numbers for coordinates are embedded as integers, which the claims never
exercise beyond equality. -/
structure Piece where
  id : String
  x : Int
  y : Int
  assetUrl : String
  owner : String
deriving Repr, DecidableEq

/-- A room record as stored by the data store in `index.js`:
`{roomCode, pieces}` (the `createdAt` metadata plays no role). -/
structure Game where
  roomCode : String
  pieces : List Piece
deriving Repr, DecidableEq

/-- The data store's room table, keyed by room code. -/
abbrev RoomStore := List (String × Game)

/-- Server-to-client events relevant to the claims. -/
inductive Event where
  | error (msg : String)
  | tokenGranted (pieceId : String)
  | tokenDenied (pieceId : String)
  | pieceLocked (pieceId playerId : String)
  | pieceUnlocked (pieceId : String)
  | pieceDragged (pieceId : String) (x y : Int) (playerId : String)
  | pieceMoved (pieceId : String) (x y : Int) (playerId : String)
  | pieceRemoved (pieceId playerId : String)
  | playerJoined (playerId : String)
  | playerLeft (playerId : String)
deriving Repr, DecidableEq

/-- An emission with its scope: `socket.emit` (to the sender),
`io.to(room).emit`, `socket.to(room).emit`, `io.emit`, and
`socket.broadcast.emit`. -/
inductive Emit where
  | toSender (e : Event)
  | toRoom (room : String) (e : Event)
  | toOthersInRoom (room : String) (e : Event)
  | toAll (e : Event)
  | toOthers (e : Event)
deriving Repr, DecidableEq

/-- The `request-token` handler of `index.js`: outside a room it emits an
error; otherwise it calls `grantToken` and, on `true`, emits `token-granted`
to the sender and `piece-locked` to the rest of the room, else
`token-denied`. -/
def requestTokenIdx (tokens : TokenMap) (currentRoom : Option String)
    (now : Nat) (sock pieceId : String) : TokenMap × List Emit :=
  match currentRoom with
  | none => (tokens, [.toSender (.error "Not in a room")])
  | some room =>
      let r := grantToken tokens now pieceId sock
      if r.1 then
        (r.2, [.toSender (.tokenGranted pieceId),
               .toOthersInRoom room (.pieceLocked pieceId sock)])
      else
        (r.2, [.toSender (.tokenDenied pieceId)])

/-- Update of `game.pieces[pieceIndex]` after `findIndex(p => p.id === pieceId)`
in `index.js`: only the first piece with a matching id receives the new
coordinates. -/
def updateFirstPiece : List Piece → String → Int → Int → List Piece
  | [], _, _, _ => []
  | p :: rest, pieceId, x, y =>
      if p.id == pieceId then { p with x := x, y := y } :: rest
      else p :: updateFirstPiece rest pieceId x y

/-- The `move-piece` handler of `index.js`: requires a room, then authority
via `hasAuthority` (whose lazy eviction may update the token map), then looks
up the room; a missing piece is appended (`// Piece doesn't exist yet, add
it`), an existing one updated in place; the room is saved and `piece-moved`
is emitted to the whole room. -/
def movePieceIdx (tokens : TokenMap) (rooms : RoomStore) (now : Nat)
    (currentRoom : Option String) (sock pieceId : String) (x y : Int)
    (assetUrl : String) : (TokenMap × RoomStore) × List Emit :=
  match currentRoom with
  | none => ((tokens, rooms), [.toSender (.error "Not in a room")])
  | some room =>
      let r := hasAuthority tokens now pieceId sock
      if !r.1 then
        ((r.2, rooms), [.toSender (.error "No authority to move this piece")])
      else
        match List.lookup room rooms with
        | none => ((r.2, rooms), [.toSender (.error "Game not found")])
        | some game =>
            let pieces' :=
              if game.pieces.any (fun p => p.id == pieceId) then
                updateFirstPiece game.pieces pieceId x y
              else
                game.pieces ++ [⟨pieceId, x, y, assetUrl, sock⟩]
            ((r.2, setKey rooms room { game with pieces := pieces' }),
             [.toRoom room (.pieceMoved pieceId x y sock)])

/-- One iteration of the disconnect loop in `index.js`, over one key of the
snapshot `Object.keys(tokenAuthority.tokens)`: if the token under that key is
owned by the disconnecting socket it is released via `releaseToken`, and when
the socket had a current room a `piece-unlocked` is emitted to that room. -/
def disconnectStep (sock : String) (currentRoom : Option String)
    (acc : TokenMap × List Emit) (k : String) : TokenMap × List Emit :=
  match List.lookup k acc.1 with
  | none => acc
  | some t =>
      if t.owner == sock then
        ((releaseToken acc.1 k sock).2,
         acc.2 ++ (match currentRoom with
                   | some r => [.toRoom r (.pieceUnlocked k)]
                   | none => []))
      else acc

/-- The `disconnect` handler of `index.js`: iterates over the keys of the
token map, releasing every token owned by the socket and emitting one
`piece-unlocked` per released token, then notifies the room with
`player-left`. -/
def disconnectIdx (tokens : TokenMap) (currentRoom : Option String)
    (sock : String) : TokenMap × List Emit :=
  let res := (tokens.map Prod.fst).foldl (disconnectStep sock currentRoom)
      (tokens, [])
  (res.1, res.2 ++ (match currentRoom with
                    | some r => [.toOthersInRoom r (.playerLeft sock)]
                    | none => []))

/-- `pieceManager.updatePiece(pieceId, {x, y})` from
`src/services/game/managers/pieceManager.js`, specialized to the coordinate
update the move handler performs: when `findIndex` misses it returns `false`
without saving; otherwise it merges the new coordinates into the matching
piece and saves. -/
def pmUpdatePiece (pieces : List Piece) (pieceId : String) (x y : Int) :
    Bool × List Piece :=
  if pieces.any (fun p => p.id == pieceId) then
    (true, updateFirstPiece pieces pieceId x y)
  else
    (false, pieces)

/-- Modelled from the spec: `src/services/tokenService.js` is required by
`src/socket/handlers.js` but is absent from the repository snapshot. Spec
§4.1 `grant`: "Always succeeds (overwrites any existing token)". -/
def tsGrantToken (m : TokenMap) (now : Nat) (pieceId conn : String) :
    Bool × TokenMap :=
  (true, setKey m pieceId ⟨conn, now⟩)

/-- Modelled from the spec: `src/services/tokenService.js` is absent from the
repository snapshot. Spec §4.1 `check`: "true iff a token exists for
`pieceId`, is not expired, and `ownerConnectionId == connectionId`. Expired
tokens are lazily evicted on check", with a token valid only while
`now - grantedAt < TTL` (30 seconds). -/
def tsHasAuthority (m : TokenMap) (now : Nat) (pieceId conn : String) :
    Bool × TokenMap :=
  match List.lookup pieceId m with
  | none => (false, m)
  | some t =>
      if 30000 ≤ now - t.timestamp then (false, delKey m pieceId)
      else (t.owner == conn, m)

/-- Modelled from the spec: `src/services/tokenService.js` is absent from the
repository snapshot. Spec §4.1 `release`: "succeeds only if the caller
currently owns a non-expired token for that piece; otherwise no-op, returns
false". -/
def tsReleaseToken (m : TokenMap) (now : Nat) (pieceId conn : String) :
    Bool × TokenMap :=
  match List.lookup pieceId m with
  | none => (false, m)
  | some t =>
      if 30000 ≤ now - t.timestamp then (false, m)
      else if t.owner == conn then (true, delKey m pieceId)
      else (false, m)

/-- The `request-token` handler of `src/socket/handlers.js` (identical in the
simplified server): grants via the token service and emits `token-granted` to
the sender plus `piece-locked` to everyone else, or `token-denied`. -/
def requestTokenH (tokens : TokenMap) (now : Nat) (sock pieceId : String) :
    TokenMap × List Emit :=
  let r := tsGrantToken tokens now pieceId sock
  if r.1 then
    (r.2, [.toSender (.tokenGranted pieceId),
           .toOthers (.pieceLocked pieceId sock)])
  else
    (r.2, [.toSender (.tokenDenied pieceId)])

/-- The `drag-piece` handler of `src/socket/handlers.js`: checks authority and
returns silently when it is absent (no emission, no store access); when
authorized it broadcasts `piece-dragged` to everyone except the sender. The
piece store is never touched on either path. -/
def dragPieceH (tokens : TokenMap) (pieces : List Piece) (now : Nat)
    (sock pieceId : String) (x y : Int) :
    (TokenMap × List Piece) × List Emit :=
  let r := tsHasAuthority tokens now pieceId sock
  if !r.1 then
    ((r.2, pieces), [])
  else
    ((r.2, pieces), [.toOthers (.pieceDragged pieceId x y sock)])

/-- The `move-piece` handler of `src/socket/handlers.js`: emits an error to
the sender when authority is absent; otherwise calls
`gameService.updatePiece` (ignoring its result) and broadcasts `piece-moved`
to all clients. -/
def movePieceH (tokens : TokenMap) (pieces : List Piece) (now : Nat)
    (sock pieceId : String) (x y : Int) :
    (TokenMap × List Piece) × List Emit :=
  let r := tsHasAuthority tokens now pieceId sock
  if !r.1 then
    ((r.2, pieces), [.toSender (.error "No authority to move this piece")])
  else
    ((r.2, (pmUpdatePiece pieces pieceId x y).2),
     [.toAll (.pieceMoved pieceId x y sock)])

/-- One iteration of the disconnect loop in `src/socket/handlers.js`, over one
piece of the current game state: when the socket has authority over the piece
the token is released and `piece-unlocked` is emitted to all clients. -/
def disconnectHStep (now : Nat) (sock : String)
    (acc : TokenMap × List Emit) (p : Piece) : TokenMap × List Emit :=
  let r := tsHasAuthority acc.1 now p.id sock
  if r.1 then
    ((tsReleaseToken r.2 now p.id sock).2,
     acc.2 ++ [.toAll (.pieceUnlocked p.id)])
  else (r.2, acc.2)

/-- The `disconnect` handler of `src/socket/handlers.js`: iterates over the
pieces of the game state (not over the token map), releasing the socket's
token on each piece it has authority over, then broadcasts `player-left`. -/
def disconnectH (tokens : TokenMap) (pieces : List Piece) (now : Nat)
    (sock : String) : TokenMap × List Emit :=
  let res := pieces.foldl (disconnectHStep now sock) (tokens, [])
  (res.1, res.2 ++ [.toOthers (.playerLeft sock)])

/-- The `piece-unlocked` emissions that disconnect cleanup owes the room
`r`: one per token in `m` owned by `sock`, in map order. -/
def unlockEmits (r sock : String) (m : TokenMap) : List Emit :=
  (m.filter (fun kv => kv.2.owner == sock)).map
    (fun kv => Emit.toRoom r (Event.pieceUnlocked kv.1))

/-! ### Association-list lemmas -/

theorem lookup_setKey_self {β : Type} (m : List (String × β)) (k : String)
    (v : β) : List.lookup k (setKey m k v) = some v := by
  induction m with
  | nil => simp [setKey, List.lookup]
  | cons kv rest ih =>
      by_cases h : kv.1 = k
      · simp [setKey, h, List.lookup]
      · have h' : (k == kv.1) = false := by
          simp [Ne.symm h]
        simp [setKey, h, List.lookup, h', ih]

theorem lookup_setKey_ne {β : Type} (m : List (String × β)) (k k' : String)
    (v : β) (h : k ≠ k') : List.lookup k (setKey m k' v) = List.lookup k m := by
  induction m with
  | nil =>
      have hb : (k == k') = false := by simp [h]
      simp [setKey, List.lookup, hb]
  | cons kv rest ih =>
      by_cases hk : kv.1 = k'
      · have h1 : (k == k') = false := by simp [h]
        have h2 : (k == kv.1) = (k == k') := by rw [hk]
        simp [setKey, hk, List.lookup, h1, h2]
      · simp [setKey, hk, List.lookup, ih]

theorem disconnectStep_cons (sock : String) (room : Option String)
    (a k : String) (tv : Token) (m : TokenMap) (es : List Emit)
    (h : a ≠ k) :
    disconnectStep sock room ((a, tv) :: m, es) k
      = ((a, tv) :: (disconnectStep sock room (m, es) k).1,
         (disconnectStep sock room (m, es) k).2) := by
  have hbk : (k == a) = false := by simp [Ne.symm h]
  cases hl : List.lookup k m with
  | none => simp [disconnectStep, List.lookup, hbk, hl]
  | some t =>
      by_cases ho : t.owner = sock
      · simp [disconnectStep, releaseToken, delKey, List.lookup, hbk, hl,
          ho, h]
      · simp [disconnectStep, List.lookup, hbk, hl, ho]

theorem foldl_disconnectStep_cons (sock : String) (room : Option String)
    (a : String) (tv : Token) (ks : List String) :
    ∀ (m : TokenMap) (es : List Emit), a ∉ ks →
      ks.foldl (disconnectStep sock room) ((a, tv) :: m, es)
        = ((a, tv) :: (ks.foldl (disconnectStep sock room) (m, es)).1,
           (ks.foldl (disconnectStep sock room) (m, es)).2) := by
  induction ks with
  | nil =>
      intro m es _
      rfl
  | cons k ks ih =>
      intro m es hk
      have hne : a ≠ k := fun h => hk (h ▸ List.mem_cons_self k ks)
      have hk' : a ∉ ks := fun h => hk (List.mem_cons_of_mem _ h)
      simp only [List.foldl_cons]
      rw [disconnectStep_cons sock room a k tv m es hne]
      rw [ih (disconnectStep sock room (m, es) k).1
            (disconnectStep sock room (m, es) k).2 hk']

theorem disconnect_fold_closed (r sock : String) (m : TokenMap) :
    ∀ (es : List Emit), (m.map Prod.fst).Nodup →
      (m.map Prod.fst).foldl (disconnectStep sock (some r)) (m, es)
        = (m.filter (fun kv => !(kv.2.owner == sock)),
           es ++ unlockEmits r sock m) := by
  induction m with
  | nil =>
      intro es _
      simp [unlockEmits]
  | cons kv rest ih =>
      obtain ⟨a, tv⟩ := kv
      intro es hnd
      have hnd' : (rest.map Prod.fst).Nodup := (List.nodup_cons.mp hnd).2
      have ha : a ∉ rest.map Prod.fst := (List.nodup_cons.mp hnd).1
      simp only [List.map_cons, List.foldl_cons]
      by_cases ho : tv.owner = sock
      · have hstep : disconnectStep sock (some r) ((a, tv) :: rest, es) a
            = (rest, es ++ [Emit.toRoom r (Event.pieceUnlocked a)]) := by
          simp [disconnectStep, releaseToken, List.lookup, delKey, ho]
        rw [hstep,
          ih (es ++ [Emit.toRoom r (Event.pieceUnlocked a)]) hnd']
        simp [unlockEmits, ho, List.filter_cons]
      · have hstep : disconnectStep sock (some r) ((a, tv) :: rest, es) a
            = ((a, tv) :: rest, es) := by
          simp [disconnectStep, List.lookup, ho]
        rw [hstep,
          foldl_disconnectStep_cons sock (some r) a tv
            (rest.map Prod.fst) rest es ha,
          ih es hnd']
        simp [unlockEmits, ho, List.filter_cons]

theorem lookup_filter_not_owner (sock p : String) (t : Token) :
    ∀ m : TokenMap,
      List.lookup p (m.filter (fun kv => !(kv.2.owner == sock))) = some t →
      (t.owner == sock) = false := by
  intro m
  induction m with
  | nil =>
      intro h
      simp at h
  | cons kv rest ih =>
      obtain ⟨a, tv⟩ := kv
      intro h
      cases hb : (tv.owner == sock) with
      | true =>
          rw [List.filter_cons] at h
          simp only [hb, Bool.not_true, if_neg, Bool.false_eq_true,
            not_false_iff] at h
          exact ih h
      | false =>
          rw [List.filter_cons] at h
          simp only [hb, Bool.not_false, if_pos] at h
          by_cases hpa : p = a
          · subst hpa
            simp [List.lookup] at h
            rw [← h]
            exact hb
          · have hb2 : (p == a) = false := by simp [hpa]
            simp only [List.lookup, hb2] at h
            exact ih h

/-! ### Claim theorems -/

/-- C1 counterexample: with a token granted at time 0 and checked at time
30000, the token's age is not strictly below the TTL, yet `hasAuthority`
still returns `true` for the owner and performs no eviction — the code
expires tokens only strictly beyond 30000 ms, while the claim requires
validity to mean `now - grantedAt < TTL`. -/
theorem c1_boundary_counterexample :
    hasAuthority [("p1", ⟨"c1", 0⟩)] 30000 "p1" "c1"
        = (true, [("p1", ⟨"c1", 0⟩)])
      ∧ ¬ ((30000 : Nat) - 0 < 30000) := by
  constructor
  · decide
  · decide

/-- C1 (amended): `check(p, c)` is true iff a token for `p` exists, is owned
by `c`, and its age is at most the TTL (30000 ms); a token strictly older
than the TTL is lazily evicted by the check and yields `false`, regardless of
which connection asks. -/
theorem c1_check_characterization (m : TokenMap) (now : Nat) (p c : String) :
    ((hasAuthority m now p c).1 = true ↔
      ∃ t, List.lookup p m = some t ∧ t.owner = c ∧ now - t.timestamp ≤ 30000)
    ∧ (∀ t, List.lookup p m = some t → 30000 < now - t.timestamp →
        hasAuthority m now p c = (false, delKey m p)) := by
  constructor
  · cases h : List.lookup p m with
    | none =>
        have hha : hasAuthority m now p c = (false, m) := by
          unfold hasAuthority
          rw [h]
        rw [hha]
        constructor
        · intro hf
          exact absurd hf (by simp)
        · rintro ⟨t, ht, -, -⟩
          cases ht
    | some t =>
        have hha : hasAuthority m now p c
            = if 30000 < now - t.timestamp then (false, delKey m p)
              else (t.owner == c, m) := by
          unfold hasAuthority
          rw [h]
        by_cases hexp : 30000 < now - t.timestamp
        · rw [if_pos hexp] at hha
          rw [hha]
          constructor
          · intro hf
            exact absurd hf (by simp)
          · rintro ⟨t', ht', -, hle⟩
            injection ht' with he
            subst he
            exfalso
            omega
        · rw [if_neg hexp] at hha
          rw [hha]
          constructor
          · intro hb
            refine ⟨t, rfl, ?_, ?_⟩
            · simpa using hb
            · omega
          · rintro ⟨t', ht', howner, -⟩
            injection ht' with he
            subst he
            simp [howner]
  · intro t ht hexp
    unfold hasAuthority
    rw [ht]
    simp [hexp]

/-- C1 witness: an expired token (granted at 0, checked at 40000) is evicted
and the check fails even for a non-owner asker. -/
theorem c1_witness :
    hasAuthority [("p1", ⟨"c1", 0⟩)] 40000 "p1" "c2"
      = (false, delKey [("p1", (⟨"c1", 0⟩ : Token))] "p1") :=
  (c1_check_characterization [("p1", ⟨"c1", 0⟩)] 40000 "p1" "c2").2
    ⟨"c1", 0⟩ rfl (by decide)

/-- C2: mutual exclusion — evaluated against the same token map at the same
instant, `check(p, c1)` and `check(p, c2)` are never both true for distinct
connections `c1 ≠ c2`. -/
theorem c2_mutual_exclusion (m : TokenMap) (now : Nat) (p c1 c2 : String) :
    ((hasAuthority m now p c1).1 && (hasAuthority m now p c2).1
      && (c1 != c2)) = false := by
  unfold hasAuthority
  cases h : List.lookup p m with
  | none => simp
  | some t =>
      by_cases hexp : 30000 < now - t.timestamp
      · simp [hexp]
      · simp only [hexp, if_neg, not_false_iff]
        by_cases h1 : t.owner = c1
        · by_cases h2 : t.owner = c2
          · have : c1 = c2 := h1 ▸ h2
            simp [this]
          · simp [h2]
        · simp [h1]

/-- C3 counterexample: a token granted at time 0 is expired at time 40000
(`hasAuthority` rejects it), yet `releaseToken` by its owner still returns
`true` and deletes it — the code never consults the token's age on release,
while the claim requires release of an expired token to fail and leave the
map unchanged. -/
theorem c3_expired_release_counterexample :
    releaseToken [("p1", ⟨"c1", 0⟩)] "p1" "c1" = (true, [])
      ∧ (hasAuthority [("p1", ⟨"c1", 0⟩)] 40000 "p1" "c1").1 = false := by
  constructor
  · decide
  · decide

/-- C3 (amended): `release(p, c)` succeeds iff a token for `p` exists and is
owned by `c`, regardless of the token's age; on success the token is deleted,
and on failure the map is unchanged. -/
theorem c3_release_characterization (m : TokenMap) (p c : String) :
    ((releaseToken m p c).1 = true ↔
      ∃ t, List.lookup p m = some t ∧ t.owner = c)
    ∧ ((releaseToken m p c).1 = true → (releaseToken m p c).2 = delKey m p)
    ∧ ((releaseToken m p c).1 = false → (releaseToken m p c).2 = m) := by
  cases h : List.lookup p m with
  | none =>
      have hrel : releaseToken m p c = (false, m) := by
        unfold releaseToken
        rw [h]
      rw [hrel]
      refine ⟨?_, ?_, ?_⟩
      · constructor
        · intro hf
          exact absurd hf (by simp)
        · rintro ⟨t, ht, -⟩
          cases ht
      · intro hf
        exact absurd hf (by simp)
      · intro _
        rfl
  | some t =>
      by_cases howner : t.owner = c
      · have hrel : releaseToken m p c = (true, delKey m p) := by
          unfold releaseToken
          rw [h]
          simp [howner]
        rw [hrel]
        refine ⟨?_, ?_, ?_⟩
        · exact ⟨fun _ => ⟨t, rfl, howner⟩, fun _ => rfl⟩
        · intro _
          rfl
        · intro hf
          exact absurd hf (by simp)
      · have hb : (t.owner == c) = false := by simp [howner]
        have hrel : releaseToken m p c = (false, m) := by
          unfold releaseToken
          rw [h]
          simp [hb]
        rw [hrel]
        refine ⟨?_, ?_, ?_⟩
        · constructor
          · intro hf
            exact absurd hf (by simp)
          · rintro ⟨t', ht', ho⟩
            injection ht' with he
            subst he
            exact absurd ho howner
        · intro hf
          exact absurd hf (by simp)
        · intro _
          rfl

/-- C3 witness: releasing with no token present returns false and leaves the
(empty) map unchanged. -/
theorem c3_witness : (releaseToken ([] : TokenMap) "p1" "c1").2 = [] :=
  (c3_release_characterization [] "p1" "c1").2.2 rfl

/-- C4: `grant(p, c)` always returns `true` and installs a token for `p`
owned by `c` with the fresh timestamp `now`, for every prior token-map state
(including one where another connection holds a valid token); immediately
after the grant, `c` has authority over `p`. -/
theorem c4_grant_unconditional (m : TokenMap) (now : Nat) (p c : String) :
    (grantToken m now p c).1 = true
    ∧ List.lookup p (grantToken m now p c).2 = some ⟨c, now⟩
    ∧ (hasAuthority (grantToken m now p c).2 now p c).1 = true := by
  refine ⟨rfl, ?_, ?_⟩
  · exact lookup_setKey_self m p ⟨c, now⟩
  · unfold hasAuthority
    rw [grantToken, lookup_setKey_self m p ⟨c, now⟩]
    simp

/-- C5 counterexample: the token map is process-global, keyed by pieceId
only. Connection `cB`, joined to room `"B"`, requests and holds the token for
piece `"p"`; then connection `cA`, joined to room `"A"`, issues
`request-token` for the same pieceId, after which `check("p", cB)` flips from
true to false — a token operation in room A changed a check result in room B,
contradicting full cross-board isolation. -/
theorem c5_cross_room_counterexample :
    (hasAuthority ((requestTokenIdx [] (some "B") 0 "cB" "p").1)
        0 "p" "cB").1 = true
    ∧ (hasAuthority
        ((requestTokenIdx ((requestTokenIdx [] (some "B") 0 "cB" "p").1)
            (some "A") 0 "cA" "p").1) 0 "p" "cB").1 = false := by
  constructor
  · decide
  · decide

/-- C5 (amended): room piece stores are isolated — a move in room `rA` never
changes the stored game of a different room `rB` — but the token map is
process-global keyed by pieceId only, so token isolation holds only between
distinct pieceIds: a `request-token` for `q` issued from room `rA` leaves
`check(p, ·)` unchanged when `p ≠ q`, while the same pieceId is shared state
across rooms. -/
theorem c5_isolation_amended (tk : TokenMap) (rooms : RoomStore)
    (now now2 : Nat) (rA rB sock c p q pid url : String) (x y : Int) :
    (p ≠ q →
      (hasAuthority ((requestTokenIdx tk (some rA) now sock q).1) now2 p c).1
        = (hasAuthority tk now2 p c).1)
    ∧ (rA ≠ rB →
      List.lookup rB
          ((movePieceIdx tk rooms now (some rA) sock pid x y url).1.2)
        = List.lookup rB rooms) := by
  constructor
  · intro hpq
    have hreq : (requestTokenIdx tk (some rA) now sock q).1
        = setKey tk q ⟨sock, now⟩ := rfl
    rw [hreq]
    have hl := lookup_setKey_ne tk p q (⟨sock, now⟩ : Token) hpq
    unfold hasAuthority
    rw [hl]
    cases List.lookup p tk with
    | none => rfl
    | some t =>
        by_cases hexp : 30000 < now2 - t.timestamp
        · simp [hexp]
        · simp [hexp]
  · intro hr
    unfold movePieceIdx
    by_cases hauth : (hasAuthority tk now pid sock).1 = true
    · simp only [hauth]
      cases hroom : List.lookup rA rooms with
      | none => simp
      | some game =>
          simp only []
          exact lookup_setKey_ne rooms rB rA _ (Ne.symm hr)
    · have hb : (hasAuthority tk now pid sock).1 = false := by
        simpa using hauth
      simp [hb]

/-- C5 witness: granting piece `"q"` from room `"A"` leaves `check("p", c)`
unchanged, and a move in room `"A"` leaves room `"B"`'s record unchanged. -/
theorem c5_witness :
    (hasAuthority ((requestTokenIdx [] (some "A") 0 "cA" "q").1)
        0 "p" "cB").1 = (hasAuthority [] 0 "p" "cB").1
    ∧ List.lookup "B"
        ((movePieceIdx [] [] 0 (some "A") "cA" "p" 1 2 "u").1.2)
      = List.lookup "B" ([] : RoomStore) :=
  ⟨(c5_isolation_amended [] [] 0 0 "A" "B" "cA" "cB" "p" "q" "p" "u" 1 2).1
      (by decide),
   (c5_isolation_amended [] [] 0 0 "A" "B" "cA" "cB" "p" "q" "p" "u" 1 2).2
      (by decide)⟩

/-- C6: a `move-piece` from a connection without authority makes the server
emit exactly one `error` event to the sender, broadcast no `piece-moved`, and
leave the piece store unchanged — in both the room variant of `index.js` and
the single-board variant of `src/socket/handlers.js`. -/
theorem c6_unauthorized_move (tk : TokenMap) (rooms : RoomStore)
    (pieces : List Piece) (now : Nat) (room sock pid url : String)
    (x y : Int) :
    ((hasAuthority tk now pid sock).1 = false →
      (movePieceIdx tk rooms now (some room) sock pid x y url).1.2 = rooms
      ∧ (movePieceIdx tk rooms now (some room) sock pid x y url).2
          = [Emit.toSender (Event.error "No authority to move this piece")])
    ∧ ((tsHasAuthority tk now pid sock).1 = false →
      (movePieceH tk pieces now sock pid x y).1.2 = pieces
      ∧ (movePieceH tk pieces now sock pid x y).2
          = [Emit.toSender (Event.error "No authority to move this piece")])
    := by
  constructor
  · intro h
    constructor
    · simp [movePieceIdx, h]
    · simp [movePieceIdx, h]
  · intro h
    constructor
    · simp [movePieceH, h]
    · simp [movePieceH, h]

/-- C6 witness: with an empty token map nobody has authority, and the move is
rejected with a single error event, leaving the (empty) room store as is. -/
theorem c6_witness :
    (movePieceIdx [] [] 0 (some "A") "cY" "p1" 99 99 "u").1.2
        = ([] : RoomStore)
    ∧ (movePieceIdx [] [] 0 (some "A") "cY" "p1" 99 99 "u").2
        = [Emit.toSender (Event.error "No authority to move this piece")] :=
  (c6_unauthorized_move [] [] [] 0 "A" "cY" "p1" "u" 99 99).1 rfl

/-- C8 counterexample: connection `cX` holds the token for `"p9"`, room
`"A"`'s board has no piece `"p9"`, yet the authorized `move-piece` in the
room variant of `index.js` creates the piece at the moved-to coordinates
instead of being a no-op. -/
theorem c8_move_creates_piece_counterexample :
    (movePieceIdx [("p9", ⟨"cX", 0⟩)] [("A", ⟨"A", []⟩)] 0 (some "A")
        "cX" "p9" 5 6 "u").1.2
      = [("A", ⟨"A", [⟨"p9", 5, 6, "u", "cX"⟩]⟩)]
    ∧ (hasAuthority [("p9", ⟨"cX", 0⟩)] 0 "p9" "cX").1 = true := by
  constructor
  · decide
  · decide

/-- C8 (amended): in the piece-manager path (`src/socket/handlers.js` via
`gameService.updatePiece`) an update for a pieceId matching no piece is a
no-op returning `false` with the piece collection unchanged; in the room
variant of `index.js`, however, an authorized `move-piece` for a missing
pieceId appends a new piece with the given coordinates (upsert), rather than
leaving the collection unchanged. -/
theorem c8_update_missing_amended (tk : TokenMap) (rooms : RoomStore)
    (now : Nat) (room sock pid url : String) (x y : Int)
    (pieces : List Piece) (game : Game) :
    ((pieces.any fun p => p.id == pid) = false →
        pmUpdatePiece pieces pid x y = (false, pieces))
    ∧ ((hasAuthority tk now pid sock).1 = true →
        List.lookup room rooms = some game →
        (game.pieces.any fun p => p.id == pid) = false →
        List.lookup room
            ((movePieceIdx tk rooms now (some room) sock pid x y url).1.2)
          = some ⟨game.roomCode, game.pieces ++ [⟨pid, x, y, url, sock⟩]⟩)
    := by
  constructor
  · intro h
    simp [pmUpdatePiece, h]
  · intro hauth hroom hmiss
    simp [movePieceIdx, hauth, hroom, hmiss, lookup_setKey_self]

/-- C8 witness: an update against an empty piece list is a no-op, and an
authorized move against an empty board appends the piece. -/
theorem c8_witness :
    pmUpdatePiece [] "p1" 3 4 = (false, [])
    ∧ List.lookup "A"
        ((movePieceIdx [("p1", ⟨"cX", 0⟩)] [("A", ⟨"A", []⟩)] 0 (some "A")
            "cX" "p1" 3 4 "u").1.2)
      = some ⟨"A", [] ++ [⟨"p1", 3, 4, "u", "cX"⟩]⟩ :=
  ⟨(c8_update_missing_amended [] [] 0 "A" "cX" "p1" "u" 3 4 [] ⟨"A", []⟩).1
      rfl,
   (c8_update_missing_amended [("p1", ⟨"cX", 0⟩)] [("A", ⟨"A", []⟩)] 0 "A"
      "cX" "p1" "u" 3 4 [] ⟨"A", []⟩).2 (by decide) rfl rfl⟩

/-- C9: `drag-piece` never touches the piece store — the stored pieces are
returned unchanged on every path — and its only output is a `piece-dragged`
broadcast to the other connections when the sender has a valid token; when
the check fails the event is dropped silently, with no broadcast and no error
to the sender. -/
theorem c9_drag_ephemeral (tk : TokenMap) (pieces : List Piece) (now : Nat)
    (sock pid : String) (x y : Int) :
    (dragPieceH tk pieces now sock pid x y).1.2 = pieces
    ∧ (dragPieceH tk pieces now sock pid x y).2
        = (if (tsHasAuthority tk now pid sock).1 then
             [Emit.toOthers (Event.pieceDragged pid x y sock)]
           else []) := by
  by_cases h : (tsHasAuthority tk now pid sock).1 = true
  · constructor
    · simp [dragPieceH, h]
    · simp [dragPieceH, h]
  · have hb : (tsHasAuthority tk now pid sock).1 = false := by simpa using h
    constructor
    · simp [dragPieceH, hb]
    · simp [dragPieceH, hb]

/-- C10: no `request-token` handler can emit `token-denied` — the grant is
unconditional in both variants, so a joined connection always receives
`token-granted` (plus a `piece-locked` broadcast to the others), and in the
room variant an unjoined connection only receives an error; the denied branch
is dead code. -/
theorem c10_no_token_denied (tk : TokenMap) (r : String) (now : Nat)
    (sock pid : String) :
    (requestTokenIdx tk (some r) now sock pid).2
        = [Emit.toSender (Event.tokenGranted pid),
           Emit.toOthersInRoom r (Event.pieceLocked pid sock)]
    ∧ (requestTokenIdx tk none now sock pid).2
        = [Emit.toSender (Event.error "Not in a room")]
    ∧ (requestTokenH tk now sock pid).2
        = [Emit.toSender (Event.tokenGranted pid),
           Emit.toOthers (Event.pieceLocked pid sock)] :=
  ⟨rfl, rfl, rfl⟩

/-- C7 counterexample: in the single-board variant
(`src/socket/handlers.js`) the disconnect handler iterates over the game
state's pieces, not over the token map. Connection `cX` requests a token for
pieceId `"ghost"`, which matches no piece; on disconnect the valid token
survives in the map and no `piece-unlocked` is emitted for it — contradicting
"no token owned by the disconnected connection survives the disconnect
handler". -/
theorem c7_ghost_token_counterexample :
    List.lookup "ghost"
        (disconnectH ((tsGrantToken [] 0 "ghost" "cX").2) [] 0 "cX").1
      = some ⟨"cX", 0⟩
    ∧ (disconnectH ((tsGrantToken [] 0 "ghost" "cX").2) [] 0 "cX").2
        = [Emit.toOthers (Event.playerLeft "cX")]
    ∧ (tsHasAuthority ((tsGrantToken [] 0 "ghost" "cX").2)
        0 "ghost" "cX").1 = true := by
  refine ⟨?_, ?_, ?_⟩
  · decide
  · decide
  · decide

/-- C7 (amended): in the room variant (`index.js`), whose disconnect handler
scans the whole token map, the cleanup claim holds — after disconnect no
token owned by the connection remains, and the room receives exactly one
`piece-unlocked` per token the connection held (each held pieceId appears
once, none duplicated or omitted, none for pieces it did not hold) followed
by `player-left`; in the single-board variant the same holds only for tokens
whose pieceId occurs in the game state's piece list, and a token for a
pieceId absent from that list survives the disconnect. -/
theorem c7_disconnect_cleanup (tokens : TokenMap) (r sock : String)
    (hnd : (tokens.map Prod.fst).Nodup) :
    (∀ p t, List.lookup p (disconnectIdx tokens (some r) sock).1 = some t →
        (t.owner == sock) = false)
    ∧ ((tokens.filter (fun kv => kv.2.owner == sock)).map Prod.fst).Nodup
    ∧ (disconnectIdx tokens (some r) sock).2
        = unlockEmits r sock tokens
          ++ [Emit.toOthersInRoom r (Event.playerLeft sock)] := by
  have hclosed := disconnect_fold_closed r sock tokens [] hnd
  have h1 : (disconnectIdx tokens (some r) sock).1
      = tokens.filter (fun kv => !(kv.2.owner == sock)) := by
    unfold disconnectIdx
    rw [hclosed]
  have h2 : (disconnectIdx tokens (some r) sock).2
      = ([] ++ unlockEmits r sock tokens)
        ++ [Emit.toOthersInRoom r (Event.playerLeft sock)] := by
    unfold disconnectIdx
    rw [hclosed]
  refine ⟨?_, ?_, ?_⟩
  · intro p t hp
    rw [h1] at hp
    exact lookup_filter_not_owner sock p t tokens hp
  · have hsub : List.Sublist
        ((tokens.filter (fun kv => kv.2.owner == sock)).map Prod.fst)
        (tokens.map Prod.fst) :=
      (List.filter_sublist tokens).map Prod.fst
    exact hnd.sublist hsub
  · rw [h2]
    simp

/-- C7 witness: a connection holding the single token receives cleanup — the
emissions are exactly one `piece-unlocked` for its piece, then
`player-left`. -/
theorem c7_witness :
    (disconnectIdx [("p1", ⟨"cX", 0⟩)] (some "R") "cX").2
      = unlockEmits "R" "cX" [("p1", ⟨"cX", 0⟩)]
        ++ [Emit.toOthersInRoom "R" (Event.playerLeft "cX")] :=
  (c7_disconnect_cleanup [("p1", ⟨"cX", 0⟩)] "R" "cX" (by decide)).2.2

end Tinytop
